import Mathlib

/-!
Verification development for the `but_object_detection` sample detector
(`but_sample_detector/src/sample_detector_node.cpp`).

The embedding below translates the frame-processing callback
`SampleDetectorNode::newDataCallback`, the identity generator
`SampleDetectorNode::getNewObjectID`, and the identity-assignment loop of the
callback into pure Lean functions.  The matcher (`MatcherOverlap::match`) and
the rectangle-overlap evaluator live in the `but_objdet` package, whose
sources are not part of this tree; they are modelled from the specification
(section 4.1 and 4.2) and marked as such.

Machine integers are modelled as `Int` (the counter never leaves a small
range, so C++ `int` overflow is unreachable on the inputs considered), and
the floating-point overlap ratio is modelled exactly over `ℚ` (all
quantities involved are ratios of small integer areas).  Out-of-bounds
vector indexing — undefined behaviour in the C++ source — is modelled by
`Option`: a `none` result marks an execution that reaches undefined
behaviour.
-/

/-- Axis-aligned rectangle, after `cv::Rect` (integer pixel units). -/
structure TRect where
  x : Int
  y : Int
  width : Int
  height : Int
  deriving DecidableEq

/-- Detection / prediction record, after `but_objdet`'s `TObject`:
an identity `m_id`, a class label `m_class` and a bounding box `m_bb`. -/
structure TObject where
  m_id : Int
  m_class : Int
  m_bb : TRect
  deriving DecidableEq

/-- Match record, after `but_objdet`'s `TMatch` as used by the callback:
`predId` is the index of the matched prediction, or `-1` for "no match".
The detection index is the position of the record in the match list. -/
structure TMatch where
  predId : Int
  deriving DecidableEq

/-- Embeds `SampleDetectorNode::getNewObjectID`:
`if(lastObjectID >= 100000) lastObjectID = 0; return ++lastObjectID;`.
Returns the pair (returned identity, new counter state). -/
def getNewObjectID (lastObjectID : Int) : Int × Int :=
  let l := if lastObjectID ≥ 100000 then 0 else lastObjectID
  (l + 1, l + 1)

/-- Counter state after `k` consecutive calls of `getNewObjectID`
starting from state `c0`. -/
def idAfter (c0 : Int) : Nat → Int
  | 0 => c0
  | k + 1 => (getNewObjectID (idAfter c0 k)).2

/-- Value returned by the `k`-th call of `getNewObjectID` (`k ≥ 1`)
in a run starting from state `c0`. -/
def kthID (c0 : Int) (k : Nat) : Int :=
  (getNewObjectID (idAfter c0 (k - 1))).1

/-- C++ `std::vector` indexing with an `int` subscript: defined (`some`)
exactly when the index is in bounds, `none` models undefined behaviour. -/
def intGet {α : Type} (l : List α) (i : Int) : Option α :=
  if h : 0 ≤ i ∧ i.toNat < l.length then some (l.get ⟨i.toNat, h.2⟩) else none

/-- Embeds the identity-assignment loop of `newDataCallback` (step 5 of the
callback): for `i` from `0` to `matches.size()-1`, if `matches[i].predId`
is not `-1` copy `predictions[matches[i].predId].m_id` into
`detections[i].m_id`, otherwise store a fresh identity from
`getNewObjectID`.  Iteration `i` touches exactly `detections[i]`, so the
indexed C++ loop is rendered as a lockstep recursion; detections beyond
`matches.size()` are left untouched.  A `none` result marks an
out-of-bounds vector access (undefined behaviour in the source). -/
def assignLoop (dets : List TObject) (mlist : List TMatch)
    (preds : List TObject) (cnt : Int) : Option (List TObject × Int) :=
  match mlist, dets with
  | [], ds => some (ds, cnt)
  | _ :: _, [] => none
  | m :: ms, d :: ds =>
    if m.predId ≠ -1 then
      match intGet preds m.predId with
      | none => none
      | some p =>
        match assignLoop ds ms preds cnt with
        | none => none
        | some (rest, c) => some ({ d with m_id := p.m_id } :: rest, c)
    else
      let r := getNewObjectID cnt
      match assignLoop ds ms preds r.2 with
      | none => none
      | some (rest, c) => some ({ d with m_id := r.1 } :: rest, c)

/-- Number of matches among the first `j` entries of `ms` that record
"no match" (`predId = -1`). -/
def unmatchedBefore (ms : List TMatch) (j : Nat) : Nat :=
  ((ms.take j).filter (fun m => m.predId == -1)).length

/-- Modelled from the spec: `overlapRatio(a, b)` of section 4.1 of the spec
(the evaluator's source, in the `but_objdet` package, is not in this tree).
Computes the intersection area of `a` and `b`; an empty intersection or a
degenerate (zero-area) operand yields `0`; otherwise the result is the
minimum of intersection/area(a) and intersection/area(b).  Modelled exactly
over `ℚ` in place of IEEE floats. -/
def overlapRatio (a b : TRect) : ℚ :=
  let ix := max a.x b.x
  let iy := max a.y b.y
  let iw := min (a.x + a.width) (b.x + b.width) - ix
  let ih := min (a.y + a.height) (b.y + b.height) - iy
  if iw ≤ 0 ∨ ih ≤ 0 then 0
  else if a.width * a.height = 0 ∨ b.width * b.height = 0 then 0
  else
    min ((iw * ih : Int) / (a.width * a.height : Int) : ℚ)
        ((iw * ih : Int) / (b.width * b.height : Int) : ℚ)

/-- Modelled from the spec: the scan of section 4.2 selecting, for a fixed
detection `d`, the qualifying prediction of strictly greatest overlap,
first-seen-wins on ties.  `i` is the index of the head of the remaining
prediction list and `best` the best qualifying (index, score) seen so far. -/
def bestPredAux (d : TObject) (t : Int) :
    List TObject → Nat → Option (Nat × ℚ) → Option (Nat × ℚ)
  | [], _, best => best
  | p :: ps, i, best =>
    let s := overlapRatio d.m_bb p.m_bb
    let best2 :=
      if p.m_class = d.m_class ∧ (t : ℚ) ≤ s * 100 then
        match best with
        | none => some (i, s)
        | some (j, bs) => if bs < s then some (i, s) else some (j, bs)
      else best
    bestPredAux d t ps (i + 1) best2

/-- Modelled from the spec: the Match produced for one detection —
the index of the best qualifying prediction, or `-1` when none exists. -/
def matchOne (d : TObject) (preds : List TObject) (t : Int) : TMatch :=
  match bestPredAux d t preds 0 none with
  | some (i, _) => ⟨(i : Int)⟩
  | none => ⟨-1⟩

/-- Modelled from the spec: `MatcherOverlap::match` (section 4.2): one Match
per detection, in detection order (`match` is a Lean keyword, hence the
name `matchList`). -/
def matchList (dets preds : List TObject) (t : Int) : List TMatch :=
  dets.map (fun d => matchOne d preds t)

/-- Member state of `SampleDetectorNode` used by the callback: the
`predictions` and `detections` buffers and the identity counter
`lastObjectID` are class members (declared in the node's header), so they
persist across callback invocations. -/
structure NodeState where
  predictions : List TObject
  detections : List TObject
  lastObjectID : Int
  deriving DecidableEq

/-- Observable outcome of one callback invocation: the frame was skipped
(decode failure), or a detection array was published and a bounding box
drawn from `detections[0]`. -/
inductive FrameOutcome where
  | skipped : FrameOutcome
  | published : List TObject → TRect → FrameOutcome
  deriving DecidableEq

/-- Embeds `SampleDetectorNode::newDataCallback`.
`decodeOk` is the outcome of `cv_bridge::toCvCopy` (false = exception →
early return); `serviceResult` is the prediction service round-trip
(`none` = call failed, in which case the code only logs and the member
`predictions` buffer keeps its previous contents); `detectorOutput` is what
`SampleDetector::detect` stores into the `detections` member (per its
contract it returns the current frame's detections).  The matcher runs with
`minOverlap = 50`.  A `none` result models reaching undefined behaviour
(an out-of-bounds vector access, in particular `detections[0]` at the end
of the callback). -/
def newDataCallback (decodeOk : Bool) (serviceResult : Option (List TObject))
    (detectorOutput : List TObject) (s : NodeState) :
    Option (NodeState × FrameOutcome) :=
  if decodeOk = false then some (s, FrameOutcome.skipped)
  else
    let preds :=
      match serviceResult with
      | some ps => ps
      | none => s.predictions
    let dets := detectorOutput
    let ms := matchList dets preds 50
    match assignLoop dets ms preds s.lastObjectID with
    | none => none
    | some (out, c) =>
      match out.get? 0 with
      | none => none
      | some d0 =>
        some ({ predictions := preds, detections := out, lastObjectID := c },
              FrameOutcome.published out d0.m_bb)

/-- A "no match" record. -/
def mNone : TMatch := ⟨-1⟩

/-- Bounding box used in the end-to-end scenarios. -/
def bbA : TRect := ⟨10, 10, 20, 20⟩

/-- A second, disjoint bounding box. -/
def bbB : TRect := ⟨100, 100, 20, 20⟩

/-- Detection of class 1 at `bbA` (identity not yet assigned). -/
def dA : TObject := ⟨0, 1, bbA⟩

/-- Detection of class 1 at `bbB` (identity not yet assigned). -/
def dB : TObject := ⟨0, 1, bbB⟩

/-- Prediction of class 1 at `bbA` carrying identity 7. -/
def p7 : TObject := ⟨7, 1, bbA⟩

/-- Node state holding prediction `p7` from an earlier successful fetch,
counter at 0. -/
def s7 : NodeState := ⟨[p7], [], 0⟩

/-! ### Properties of the identity counter -/

/-- The value returned by `getNewObjectID` equals its new counter state. -/
lemma getNewObjectID_fst_eq_snd (s : Int) :
    (getNewObjectID s).1 = (getNewObjectID s).2 := rfl

/-- Running the counter `m + k` steps is running it `m` steps, then `k`. -/
lemma idAfter_add (c0 : Int) (m : Nat) :
    ∀ k : Nat, idAfter c0 (m + k) = idAfter (idAfter c0 m) k := by
  intro k
  induction k with
  | zero => rfl
  | succ n ih => rw [← Nat.add_assoc, idAfter, ih, idAfter]

/-- Closed form of the counter state: starting from a state in `[0, 100000]`,
after `k + 1` calls the state is `(s + k) % 100000 + 1`. -/
lemma idAfter_formula (s : Int) (h0 : 0 ≤ s) (h1 : s ≤ 100000) :
    ∀ k : Nat, idAfter s (k + 1) = (s + k) % 100000 + 1 := by
  intro k
  induction k with
  | zero =>
    simp only [idAfter, getNewObjectID]
    split <;> push_cast <;> omega
  | succ n ih =>
    show (getNewObjectID (idAfter s (n + 1))).2 = _
    rw [ih]
    simp only [getNewObjectID]
    split <;> push_cast <;> omega

/-- For `k ≥ 1`, the `k`-th returned identity is the `k`-th counter state. -/
lemma kthID_eq_idAfter (c0 : Int) (k : Nat) (hk : 1 ≤ k) :
    kthID c0 k = idAfter c0 k := by
  obtain ⟨n, rfl⟩ : ∃ n, k = n + 1 := ⟨k - 1, by omega⟩
  simp [kthID, idAfter, getNewObjectID]

/-- Starting from 0, the counter state stays within `[0, 100000]`. -/
lemma idAfter_zero_range : ∀ k : Nat, 0 ≤ idAfter 0 k ∧ idAfter 0 k ≤ 100000 := by
  intro k
  induction k with
  | zero => simp [idAfter]
  | succ n ih =>
    simp only [idAfter, getNewObjectID]
    split <;> omega

/-- From any non-negative state, the returned identity is in `[1, 100000]`. -/
lemma getNewObjectID_val_range (s : Int) (h : 0 ≤ s) :
    1 ≤ (getNewObjectID s).1 ∧ (getNewObjectID s).1 ≤ 100000 := by
  simp only [getNewObjectID]
  split <;> omega

/-- Two counter values fewer than 100000 steps apart are distinct. -/
lemma idAfter_ne (s : Int) (h0 : 0 ≤ s) (h1 : s ≤ 100000) (m n : Nat)
    (hmn : m < n) (hd : n - m < 100000) :
    idAfter s (m + 1) ≠ idAfter s (n + 1) := by
  rw [idAfter_formula s h0 h1 m, idAfter_formula s h0 h1 n]
  intro h
  omega

/-- C1: starting from counter state 0, the `k`-th freshly minted identity is
`((k-1) mod 100000) + 1` for every `k ≥ 1` (so the sequence runs 1, ...,
100000 and wraps back to 1, never reaching 100001); and in the end-to-end
scenario with two class-1 detections at disjoint boxes, no predictions and
counter 0, the published identities are 1 and 2, in detection order. -/
theorem c1_fresh_identity_sequence (k : Nat) (hk : 1 ≤ k) :
    kthID 0 k = (((k - 1) % 100000 : Nat) : Int) + 1 ∧
    newDataCallback true (some []) [dA, dB] ⟨[], [], 0⟩ =
      some (⟨[], [⟨1, 1, bbA⟩, ⟨2, 1, bbB⟩], 2⟩,
            FrameOutcome.published [⟨1, 1, bbA⟩, ⟨2, 1, bbB⟩] bbA) := by
  constructor
  · obtain ⟨n, rfl⟩ : ∃ n, k = n + 1 := ⟨k - 1, by omega⟩
    rw [kthID_eq_idAfter 0 (n + 1) hk, idAfter_formula 0 (by norm_num) (by norm_num) n]
    omega
  · decide

/-- Witness for C1 at `k = 3`. -/
theorem c1_fresh_identity_sequence_witness :
    kthID 0 3 = (((3 - 1) % 100000 : Nat) : Int) + 1 ∧
    newDataCallback true (some []) [dA, dB] ⟨[], [], 0⟩ =
      some (⟨[], [⟨1, 1, bbA⟩, ⟨2, 1, bbB⟩], 2⟩,
            FrameOutcome.published [⟨1, 1, bbA⟩, ⟨2, 1, bbB⟩] bbA) :=
  c1_fresh_identity_sequence 3 (by decide)

/-! ### Properties of the identity-assignment loop -/

/-- A successful `intGet` certifies that the index was in bounds and the
returned element belongs to the list. -/
lemma intGet_eq_some {α : Type} {l : List α} {i : Int} {a : α}
    (h : intGet l i = some a) : 0 ≤ i ∧ i.toNat < l.length ∧ a ∈ l := by
  unfold intGet at h
  split at h
  · rename_i hc
    cases h
    exact ⟨hc.1, hc.2, List.get_mem _ _ _⟩
  · exact absurd h (by simp)

/-- An in-bounds `intGet` succeeds. -/
lemma intGet_isSome {α : Type} {l : List α} {i : Int}
    (h0 : 0 ≤ i) (h1 : i.toNat < l.length) : (intGet l i).isSome := by
  unfold intGet
  rw [dif_pos ⟨h0, h1⟩]
  rfl

/-- One unfolding step of `assignLoop`, in `Option.bind`/`Option.map` form. -/
lemma assignLoop_cons (d : TObject) (ds : List TObject) (m : TMatch)
    (ms : List TMatch) (preds : List TObject) (c : Int) :
    assignLoop (d :: ds) (m :: ms) preds c =
      if m.predId ≠ -1 then
        (intGet preds m.predId).bind (fun p =>
          (assignLoop ds ms preds c).map
            (fun rc => ({ d with m_id := p.m_id } :: rc.1, rc.2)))
      else
        (assignLoop ds ms preds (getNewObjectID c).2).map
          (fun rc => ({ d with m_id := (getNewObjectID c).1 } :: rc.1, rc.2)) := by
  rw [assignLoop]
  split
  · cases hg : intGet preds m.predId with
    | none => simp
    | some p =>
      cases hr : assignLoop ds ms preds c with
      | none => simp
      | some rc => cases rc with | mk rest c2 => simp
  · cases hr : assignLoop ds ms preds (getNewObjectID c).2 with
    | none => simp [hr]
    | some rc => cases rc with | mk rest c2 => simp [hr]

/-- A successful `assignLoop` run returns one output detection per input
detection, and certifies that the match list was no longer than the
detection list. -/
lemma assignLoop_some_length :
    ∀ (ms : List TMatch) (dets preds out : List TObject) (c c' : Int),
      assignLoop dets ms preds c = some (out, c') →
      out.length = dets.length ∧ ms.length ≤ dets.length := by
  intro ms
  induction ms with
  | nil =>
    intro dets preds out c c' h
    rw [assignLoop] at h
    cases h
    simp
  | cons m ms ih =>
    intro dets preds out c c' h
    cases dets with
    | nil => exact absurd h (by rw [assignLoop]; simp)
    | cons d ds =>
      rw [assignLoop_cons] at h
      split at h
      · rcases Option.bind_eq_some.mp h with ⟨p, hp, h2⟩
        rcases Option.map_eq_some'.mp h2 with ⟨rc, hrc, he⟩
        injection he with h1 h2
        subst h1
        have := ih ds preds rc.1 c rc.2 (by rw [hrc])
        simp only [List.length_cons]
        omega
      · rcases Option.map_eq_some'.mp h with ⟨rc, hrc, he⟩
        injection he with h1 h2
        subst h1
        have := ih ds preds rc.1 (getNewObjectID c).2 rc.2 (by rw [hrc])
        simp only [List.length_cons]
        omega

/-- In a successful `assignLoop` run, a detection whose match references a
prediction ends up carrying that prediction's identity. -/
lemma assignLoop_matched :
    ∀ (ms : List TMatch) (dets preds out : List TObject) (c c' : Int)
      (i : Nat) (mi : TMatch),
      assignLoop dets ms preds c = some (out, c') →
      ms[i]? = some mi → mi.predId ≠ -1 →
      ∃ p, intGet preds mi.predId = some p ∧
        out[i]?.map TObject.m_id = some p.m_id := by
  intro ms
  induction ms with
  | nil =>
    intro dets preds out c c' i mi h hmi hne
    simp at hmi
  | cons m ms ih =>
    intro dets preds out c c' i mi h hmi hne
    cases dets with
    | nil => exact absurd h (by rw [assignLoop]; simp)
    | cons d ds =>
      rw [assignLoop_cons] at h
      cases i with
      | zero =>
        simp only [List.getElem?_cons_zero, Option.some.injEq] at hmi
        subst hmi
        rw [if_pos hne] at h
        rcases Option.bind_eq_some.mp h with ⟨p, hp, h2⟩
        rcases Option.map_eq_some'.mp h2 with ⟨rc, hrc, he⟩
        injection he with h1 h2
        subst h1
        exact ⟨p, hp, by simp⟩
      | succ n =>
        simp only [List.getElem?_cons_succ] at hmi
        split at h
        · rcases Option.bind_eq_some.mp h with ⟨p, hp, h2⟩
          rcases Option.map_eq_some'.mp h2 with ⟨rc, hrc, he⟩
          injection he with h1 h2
          subst h1
          simpa using ih ds preds rc.1 c rc.2 n mi (by rw [hrc]) hmi hne
        · rcases Option.map_eq_some'.mp h with ⟨rc, hrc, he⟩
          injection he with h1 h2
          subst h1
          simpa using ih ds preds rc.1 (getNewObjectID c).2 rc.2 n mi (by rw [hrc]) hmi hne

/-- In a successful `assignLoop` run, every non-negative prediction index
occurring in the match list is a valid index into the prediction list. -/
lemma assignLoop_some_valid :
    ∀ (ms : List TMatch) (dets preds out : List TObject) (c c' : Int),
      assignLoop dets ms preds c = some (out, c') →
      ∀ m ∈ ms, 0 ≤ m.predId → m.predId.toNat < preds.length := by
  intro ms
  induction ms with
  | nil =>
    intro dets preds out c c' h m hm
    simp at hm
  | cons m0 ms ih =>
    intro dets preds out c c' h m hm hnn
    cases dets with
    | nil => exact absurd h (by rw [assignLoop]; simp)
    | cons d ds =>
      rw [assignLoop_cons] at h
      rcases List.mem_cons.mp hm with rfl | hm'
      · have hne : m.predId ≠ -1 := by omega
        rw [if_pos hne] at h
        rcases Option.bind_eq_some.mp h with ⟨p, hp, h2⟩
        exact (intGet_eq_some hp).2.1
      · split at h
        · rcases Option.bind_eq_some.mp h with ⟨p, hp, h2⟩
          rcases Option.map_eq_some'.mp h2 with ⟨rc, hrc, he⟩
          exact ih ds preds rc.1 c rc.2 (by rw [hrc]) m hm' hnn
        · rcases Option.map_eq_some'.mp h with ⟨rc, hrc, he⟩
          exact ih ds preds rc.1 (getNewObjectID c).2 rc.2 (by rw [hrc]) m hm' hnn

/-- C2: in any frame, if the `i`-th Match references a prediction (its
prediction index is not -1), then after the assignment loop the `i`-th
detection's identity equals the identity carried by the referenced
prediction. -/
theorem c2_matched_detection_inherits_identity
    (dets preds out : List TObject) (ms : List TMatch) (c c' : Int)
    (i : Nat) (mi : TMatch)
    (hsome : assignLoop dets ms preds c = some (out, c'))
    (hmi : ms[i]? = some mi) (hne : mi.predId ≠ -1) :
    ∃ p, intGet preds mi.predId = some p ∧
      out[i]?.map TObject.m_id = some p.m_id :=
  assignLoop_matched ms dets preds out c c' i mi hsome hmi hne

/-- Witness for C2: one detection matched to the prediction carrying
identity 7 ends the frame with identity 7. -/
theorem c2_matched_detection_inherits_identity_witness :
    ∃ p, intGet [p7] (0 : Int) = some p ∧
      (([⟨7, 1, bbA⟩] : List TObject)[0]?).map TObject.m_id = some p.m_id :=
  c2_matched_detection_inherits_identity [dA] [p7] [⟨7, 1, bbA⟩] [⟨0⟩] 0 0 0 ⟨0⟩
    (by decide) (by decide) (by decide)

/-- C10: a successful identity-assignment loop certifies its index
preconditions: the match list is no longer than the detection list, and
every non-negative `predId` in the match list is a valid index into the
prediction list (the loop reaches undefined behaviour otherwise, modelled
by a `none` result). -/
theorem c10_assignment_loop_index_preconditions
    (dets preds out : List TObject) (ms : List TMatch) (c c' : Int)
    (hsome : assignLoop dets ms preds c = some (out, c')) :
    ms.length ≤ dets.length ∧
    ∀ m ∈ ms, 0 ≤ m.predId → m.predId.toNat < preds.length :=
  ⟨(assignLoop_some_length ms dets preds out c c' hsome).2,
   assignLoop_some_valid ms dets preds out c c' hsome⟩

/-- Witness for C10 on a concrete one-detection frame. -/
theorem c10_assignment_loop_index_preconditions_witness :
    ([⟨(0 : Int)⟩] : List TMatch).length ≤ ([dA] : List TObject).length ∧
    ∀ m ∈ ([⟨(0 : Int)⟩] : List TMatch),
      0 ≤ m.predId → m.predId.toNat < ([p7] : List TObject).length :=
  c10_assignment_loop_index_preconditions [dA] [p7] [⟨7, 1, bbA⟩] [⟨0⟩] 0 0
    (by decide)

/-! ### The frame cycle on service failure and decode failure -/

/-- Concrete frame: the service call fails while the member buffer still
holds prediction `p7` from an earlier frame — the detection is matched
against the stale prediction and inherits identity 7. -/
lemma callback_service_failure_stale :
    newDataCallback true none [dA] s7 =
      some (⟨[p7], [⟨7, 1, bbA⟩], 0⟩, FrameOutcome.published [⟨7, 1, bbA⟩] bbA) := by
  have hov : overlapRatio bbA bbA = 1 := by norm_num [overlapRatio, bbA]
  norm_num [newDataCallback, matchList, matchOne, bestPredAux, assignLoop,
    intGet, s7, dA, p7, hov]

/-- Concrete frame: the same input processed with an empty prediction set
mints the fresh identity 1 instead. -/
lemma callback_empty_predictions :
    newDataCallback true (some []) [dA] s7 =
      some (⟨[], [⟨1, 1, bbA⟩], 1⟩, FrameOutcome.published [⟨1, 1, bbA⟩] bbA) := by
  norm_num [newDataCallback, matchList, matchOne, bestPredAux, assignLoop,
    intGet, s7, dA, getNewObjectID]

/-- C3 counterexample: a frame whose prediction-service call fails is NOT
processed as if the prediction list were empty — the member `predictions`
buffer retained from the previous successful frame is reused (here the
detection inherits stale identity 7 instead of fresh identity 1). -/
theorem c3_service_failure_counterexample :
    newDataCallback true none [dA] s7 ≠ newDataCallback true (some []) [dA] s7 := by
  rw [callback_service_failure_stale, callback_empty_predictions]
  decide

/-- C3 amended: when the prediction-provider call fails, the frame is
processed with the prediction buffer retained from the most recent
successful call (which is empty only if no call ever succeeded), exactly as
if the provider had returned that retained buffer. -/
theorem c3_service_failure_uses_retained_buffer
    (dout : List TObject) (s : NodeState) :
    newDataCallback true none dout s =
      newDataCallback true (some s.predictions) dout s := rfl

/-- C6: when frame decoding fails, the callback returns immediately: no
prediction fetch, no matching, no identity assignment; the node state
(including the identity counter) is unchanged and nothing is published. -/
theorem c6_decode_failure_skips_frame
    (sr : Option (List TObject)) (dout : List TObject) (s : NodeState) :
    newDataCallback false sr dout s = some (s, FrameOutcome.skipped) := rfl

/-! ### Properties of the matcher -/

/-- The scan of `bestPredAux` either returns its initial candidate or an
index of one of the scanned predictions. -/
lemma bestPredAux_cases (d : TObject) (t : Int) :
    ∀ (ps : List TObject) (i : Nat) (best : Option (Nat × ℚ)) (j : Nat) (sc : ℚ),
      bestPredAux d t ps i best = some (j, sc) →
      (∃ s0, best = some (j, s0)) ∨ (i ≤ j ∧ j < i + ps.length) := by
  intro ps
  induction ps with
  | nil =>
    intro i best j sc h
    rw [bestPredAux] at h
    exact Or.inl ⟨sc, h⟩
  | cons p ps ih =>
    intro i best j sc h
    simp only [bestPredAux] at h
    rcases ih (i + 1) _ j sc h with ⟨s0, he⟩ | ⟨h1, h2⟩
    · split at he
      · split at he
        · simp only [Option.some.injEq, Prod.mk.injEq] at he
          right
          simp only [List.length_cons]
          omega
        · split at he
          · simp only [Option.some.injEq, Prod.mk.injEq] at he
            right
            simp only [List.length_cons]
            omega
          · simp only [Option.some.injEq, Prod.mk.injEq] at he
            exact Or.inl ⟨_, by rw [he.1]⟩
      · exact Or.inl ⟨s0, he⟩
    · right
      simp only [List.length_cons]
      omega

/-- Every Match produced by the matcher either records "no match" (-1) or a
valid index into the prediction list. -/
lemma matchOne_valid (d : TObject) (preds : List TObject) (t : Int) :
    (matchOne d preds t).predId = -1 ∨
    (0 ≤ (matchOne d preds t).predId ∧
     (matchOne d preds t).predId.toNat < preds.length) := by
  unfold matchOne
  cases hb : bestPredAux d t preds 0 none with
  | none => exact Or.inl rfl
  | some pr =>
    cases pr with
    | mk j sc =>
      rcases bestPredAux_cases d t preds 0 none j sc hb with ⟨s0, he⟩ | ⟨h1, h2⟩
      · exact Option.noConfusion he
      · right
        show 0 ≤ ((j : Nat) : Int) ∧ (((j : Nat) : Int)).toNat < preds.length
        omega

/-- The matcher always produces one Match per detection. -/
lemma matchList_length (dets preds : List TObject) (t : Int) :
    (matchList dets preds t).length = dets.length := by
  simp [matchList]

/-- Every entry of a matcher result is "no match" or a valid index. -/
lemma matchList_valid (dets preds : List TObject) (t : Int) :
    ∀ m ∈ matchList dets preds t,
      m.predId = -1 ∨ (0 ≤ m.predId ∧ m.predId.toNat < preds.length) := by
  intro m hm
  rcases List.mem_map.mp hm with ⟨d, hd, rfl⟩
  exact matchOne_valid d preds t

/-- The assignment loop succeeds whenever the match list is no longer than
the detection list and every referenced prediction index is valid. -/
lemma assignLoop_isSome :
    ∀ (ms : List TMatch) (dets preds : List TObject) (c : Int),
      ms.length ≤ dets.length →
      (∀ m ∈ ms, m.predId = -1 ∨ (0 ≤ m.predId ∧ m.predId.toNat < preds.length)) →
      (assignLoop dets ms preds c).isSome := by
  intro ms
  induction ms with
  | nil =>
    intro dets preds c h1 h2
    simp [assignLoop]
  | cons m ms ih =>
    intro dets preds c h1 h2
    cases dets with
    | nil => simp at h1
    | cons d ds =>
      rw [assignLoop_cons]
      rcases h2 m (by simp) with hm | ⟨hm0, hm1⟩
      · rw [if_neg (by omega)]
        have hrec := ih ds preds (getNewObjectID c).2 (by simpa using h1)
          (fun m' hm' => h2 m' (by simp [hm']))
        simpa [Option.isSome_map] using hrec
      · rw [if_pos (by omega)]
        have hg := intGet_isSome (l := preds) hm0 hm1
        cases hgi : intGet preds m.predId with
        | none => rw [hgi] at hg; simp at hg
        | some p =>
          have hrec := ih ds preds c (by simpa using h1)
            (fun m' hm' => h2 m' (by simp [hm']))
          simpa [Option.isSome_map] using hrec

/-- C7: for every detection list, prediction list and threshold, the Match
list returned by the matcher has exactly the length of the detection list,
and a "no match" outcome is represented explicitly by prediction index -1
(every other entry is a valid prediction index), never by omission. -/
theorem c7_match_list_length_and_explicit_none
    (dets preds : List TObject) (t : Int) :
    (matchList dets preds t).length = dets.length ∧
    ∀ m ∈ matchList dets preds t,
      m.predId = -1 ∨ (0 ≤ m.predId ∧ m.predId.toNat < preds.length) :=
  ⟨matchList_length dets preds t, matchList_valid dets preds t⟩

/-- Core of C9, for an explicit prediction buffer: a decoded frame's
callback completes (in particular the final `detections[0]` access is in
bounds) exactly when the detector returned at least one detection. -/
lemma callback_isSome_iff (preds dout : List TObject) (s : NodeState) :
    (newDataCallback true (some preds) dout s).isSome = true ↔ dout ≠ [] := by
  obtain ⟨⟨out, c'⟩, hsome⟩ := Option.isSome_iff_exists.mp
    (assignLoop_isSome (matchList dout preds 50) dout preds s.lastObjectID
      (le_of_eq (matchList_length dout preds 50))
      (matchList_valid dout preds 50))
  have hlen := (assignLoop_some_length _ _ _ _ _ _ hsome).1
  simp only [newDataCallback, hsome]
  cases ho : out.get? 0 with
  | none =>
    have h0 : out.length = 0 := by
      have := List.get?_eq_none.mp ho
      omega
    have : dout = [] := List.length_eq_zero.mp (by omega)
    simp [this]
  | some d0 =>
    have h0 : 0 < out.length := by
      rcases List.get?_eq_some.mp ho with ⟨hlt, _⟩
      omega
    have : dout ≠ [] := by
      intro hnil
      rw [hnil] at hlen
      simp only [List.length_nil] at hlen
      omega
    simp [this]

/-- C9: after publishing, the callback unconditionally reads
`detections[0]`; a decoded frame's callback execution is well-defined
exactly when the detector returned at least one detection (the empty-list
branch of that access is unreachable under the precondition). -/
theorem c9_first_detection_read_requires_nonempty
    (sr : Option (List TObject)) (dout : List TObject) (s : NodeState) :
    (newDataCallback true sr dout s).isSome = true ↔ dout ≠ [] := by
  cases sr with
  | none => exact callback_isSome_iff s.predictions dout s
  | some ps => exact callback_isSome_iff ps dout s

/-- If the counter starts non-negative and every prediction carries a
non-negative identity, every detection leaving a successful assignment
loop that covers the whole detection list carries a non-negative
identity. -/
lemma assignLoop_all_nonneg :
    ∀ (ms : List TMatch) (dets preds out : List TObject) (c c' : Int),
      0 ≤ c →
      (∀ p ∈ preds, 0 ≤ p.m_id) →
      ms.length = dets.length →
      assignLoop dets ms preds c = some (out, c') →
      ∀ d ∈ out, 0 ≤ d.m_id := by
  intro ms
  induction ms with
  | nil =>
    intro dets preds out c c' hc hp hlen h d hd
    rw [assignLoop] at h
    cases h
    have : dets = [] := List.length_eq_zero.mp (by simpa using hlen.symm)
    subst this
    simp at hd
  | cons m ms ih =>
    intro dets preds out c c' hc hp hlen h d hd
    cases dets with
    | nil => simp at hlen
    | cons d0 ds =>
      rw [assignLoop_cons] at h
      split at h
      · rcases Option.bind_eq_some.mp h with ⟨p, hpg, h2⟩
        rcases Option.map_eq_some'.mp h2 with ⟨rc, hrc, he⟩
        injection he with h1 h2'
        subst h1
        rcases List.mem_cons.mp hd with rfl | hd'
        · simpa using hp p (intGet_eq_some hpg).2.2
        · exact ih ds preds rc.1 c rc.2 hc hp (by simpa using hlen) (by rw [hrc]) d hd'
      · rcases Option.map_eq_some'.mp h with ⟨rc, hrc, he⟩
        injection he with h1 h2'
        subst h1
        rcases List.mem_cons.mp hd with rfl | hd'
        · have h1r := (getNewObjectID_val_range c hc).1
          show 0 ≤ (getNewObjectID c).1
          omega
        · have h1r := (getNewObjectID_val_range c hc).1
          rw [getNewObjectID_fst_eq_snd] at h1r
          exact ih ds preds rc.1 (getNewObjectID c).2 rc.2 (by omega) hp
            (by simpa using hlen) (by rw [hrc]) d hd'

/-- C5: starting from 0 the identity counter state stays in `[0, 100000]`,
every value the generator returns lies in `[1, 100000]`, and consequently
(predictions carrying valid identities) every detection leaving the
identity-assignment loop carries a non-negative identity. -/
theorem c5_counter_range_and_valid_identities
    (k : Nat) (dets preds out : List TObject) (ms : List TMatch) (c c' : Int)
    (hc0 : 0 ≤ c) (hp : ∀ p ∈ preds, 0 ≤ p.m_id)
    (hlen : ms.length = dets.length)
    (hsome : assignLoop dets ms preds c = some (out, c')) :
    (0 ≤ idAfter 0 k ∧ idAfter 0 k ≤ 100000) ∧
    (1 ≤ kthID 0 k ∧ kthID 0 k ≤ 100000) ∧
    ∀ d ∈ out, 0 ≤ d.m_id :=
  ⟨idAfter_zero_range k,
   getNewObjectID_val_range (idAfter 0 (k - 1)) (idAfter_zero_range (k - 1)).1,
   assignLoop_all_nonneg ms dets preds out c c' hc0 hp hlen hsome⟩

/-- Witness for C5 at `k = 1` on a one-detection frame with no
predictions. -/
theorem c5_counter_range_and_valid_identities_witness :
    (0 ≤ idAfter 0 1 ∧ idAfter 0 1 ≤ 100000) ∧
    (1 ≤ kthID 0 1 ∧ kthID 0 1 ≤ 100000) ∧
    ∀ d ∈ ([⟨1, 1, bbA⟩] : List TObject), 0 ≤ d.m_id :=
  c5_counter_range_and_valid_identities 1 [dA] [] [⟨1, 1, bbA⟩] [mNone] 0 1
    (by decide) (by simp) (by decide) (by decide)

/-! ### Self-overlap of rectangles -/

/-- C8 counterexample: for the degenerate (zero-area) rectangle the
self-overlap ratio is 0, not 1, so `overlapRatio(a, a) = 1` does not hold
for ALL rectangles. -/
theorem c8_self_overlap_degenerate_counterexample :
    overlapRatio ⟨0, 0, 0, 0⟩ ⟨0, 0, 0, 0⟩ ≠ 1 := by decide

/-- C8 amended: for every rectangle with positive width and height (i.e.
positive area — degenerate rectangles yield ratio 0 instead, as the spec's
degenerate-case clause requires), the self-overlap ratio is exactly 1. -/
theorem c8_self_overlap_ratio_one (a : TRect)
    (hw : 0 < a.width) (hh : 0 < a.height) :
    overlapRatio a a = 1 := by
  have hA : ((a.width * a.height : Int) : ℚ) ≠ 0 := by
    rw [Int.cast_ne_zero]
    exact mul_ne_zero (by omega) (by omega)
  simp only [overlapRatio, max_self, min_self, add_sub_cancel_left]
  rw [if_neg (by omega), if_neg (by rw [or_self]; exact mul_ne_zero (by omega) (by omega))]
  rw [div_self hA]

/-- Witness for C8 (amended) on a concrete 10 by 20 rectangle. -/
theorem c8_self_overlap_ratio_one_witness :
    overlapRatio ⟨0, 0, 10, 20⟩ ⟨0, 0, 10, 20⟩ = 1 :=
  c8_self_overlap_ratio_one ⟨0, 0, 10, 20⟩ (by decide) (by decide)

/-! ### Fresh identities within one assignment batch -/

/-- No entries are counted before position 0. -/
lemma unmatchedBefore_zero (ms : List TMatch) : unmatchedBefore ms 0 = 0 := rfl

/-- Counting one position further adds one exactly when that position
records "no match". -/
lemma unmatchedBefore_succ (ms : List TMatch) (i : Nat) (mi : TMatch)
    (hmi : ms[i]? = some mi) :
    unmatchedBefore ms (i + 1) =
      unmatchedBefore ms i + (if mi.predId = -1 then 1 else 0) := by
  unfold unmatchedBefore
  rw [List.take_succ, hmi]
  by_cases hm : mi.predId = -1 <;>
    simp [List.filter_append, hm]

/-- Head decomposition of the unmatched count. -/
lemma unmatchedBefore_cons (m : TMatch) (ms : List TMatch) (j : Nat) :
    unmatchedBefore (m :: ms) (j + 1) =
      (if m.predId = -1 then 1 else 0) + unmatchedBefore ms j := by
  unfold unmatchedBefore
  rw [List.take_succ_cons, List.filter_cons]
  by_cases hm : m.predId = -1 <;>
    simp [hm, Nat.add_comm]

/-- The unmatched count is monotone in the position. -/
lemma unmatchedBefore_mono (ms : List TMatch) {a b : Nat} (hab : a ≤ b) :
    unmatchedBefore ms a ≤ unmatchedBefore ms b := by
  unfold unmatchedBefore
  have h1 : ms.take a = (ms.take b).take a := by
    rw [List.take_take, Nat.min_eq_left hab]
  rw [h1]
  exact (((List.take_sublist a (ms.take b)).filter _)).length_le

/-- The unmatched count never exceeds the total number of "no match"
entries. -/
lemma unmatchedBefore_le_filter (ms : List TMatch) (j : Nat) :
    unmatchedBefore ms j ≤ (ms.filter (fun m => m.predId == -1)).length := by
  unfold unmatchedBefore
  exact (((List.take_sublist j ms).filter _)).length_le

/-- In a successful `assignLoop` run, the detection at an unmatched
position `i` receives exactly the value of the counter after as many
`getNewObjectID` calls as there are unmatched positions up to and
including `i`. -/
lemma assignLoop_unmatched_id :
    ∀ (ms : List TMatch) (dets preds out : List TObject) (c c' : Int)
      (i : Nat) (mi : TMatch),
      assignLoop dets ms preds c = some (out, c') →
      ms[i]? = some mi → mi.predId = -1 →
      out[i]?.map TObject.m_id = some (idAfter c (unmatchedBefore ms (i + 1))) := by
  intro ms
  induction ms with
  | nil =>
    intro dets preds out c c' i mi h hmi hm
    simp at hmi
  | cons m ms ih =>
    intro dets preds out c c' i mi h hmi hm
    cases dets with
    | nil => exact absurd h (by rw [assignLoop]; simp)
    | cons d ds =>
      rw [assignLoop_cons] at h
      cases i with
      | zero =>
        simp only [List.getElem?_cons_zero, Option.some.injEq] at hmi
        subst hmi
        rw [if_neg (by omega)] at h
        rcases Option.map_eq_some'.mp h with ⟨rc, hrc, he⟩
        injection he with h1 h2
        subst h1
        have hu : unmatchedBefore (m :: ms) 1 = 1 := by
          rw [unmatchedBefore_cons, if_pos hm, unmatchedBefore_zero]
        rw [hu]
        simp only [List.getElem?_cons_zero, Option.map_some']
        rw [getNewObjectID_fst_eq_snd]
        rfl
      | succ n =>
        simp only [List.getElem?_cons_succ] at hmi
        split at h
        · rename_i hcond
          rcases Option.bind_eq_some.mp h with ⟨p, hpg, h2⟩
          rcases Option.map_eq_some'.mp h2 with ⟨rc, hrc, he⟩
          injection he with h1 h2'
          subst h1
          simp only [List.getElem?_cons_succ]
          rw [unmatchedBefore_cons, if_neg hcond, Nat.zero_add]
          exact ih ds preds rc.1 c rc.2 n mi (by rw [hrc]) hmi hm
        · rename_i hcond
          rcases Option.map_eq_some'.mp h with ⟨rc, hrc, he⟩
          injection he with h1 h2'
          subst h1
          have hm0 : m.predId = -1 := not_not.mp hcond
          simp only [List.getElem?_cons_succ]
          rw [unmatchedBefore_cons, if_pos hm0]
          rw [ih ds preds rc.1 (getNewObjectID c).2 rc.2 n mi (by rw [hrc]) hmi hm]
          rw [idAfter_add c 1 (unmatchedBefore ms (n + 1))]
          rfl

/-- Ordered core of C4: within one batch with at most 100000 unmatched
entries, two unmatched positions `i < j` receive distinct fresh ids. -/
lemma assignLoop_distinct_unmatched_lt
    (dets preds out : List TObject) (ms : List TMatch) (c c' : Int)
    (i j : Nat) (mi mj : TMatch)
    (hc0 : 0 ≤ c) (hc1 : c ≤ 100000)
    (hU : (ms.filter (fun m => m.predId == -1)).length ≤ 100000)
    (hsome : assignLoop dets ms preds c = some (out, c'))
    (hlt : i < j)
    (hmi : ms[i]? = some mi) (hmj : ms[j]? = some mj)
    (hi : mi.predId = -1) (hj : mj.predId = -1) :
    ∃ a b, out[i]? = some a ∧ out[j]? = some b ∧ a.m_id ≠ b.m_id := by
  have hvi := assignLoop_unmatched_id ms dets preds out c c' i mi hsome hmi hi
  have hvj := assignLoop_unmatched_id ms dets preds out c c' j mj hsome hmj hj
  rcases Option.map_eq_some'.mp hvi with ⟨a, ha, ham⟩
  rcases Option.map_eq_some'.mp hvj with ⟨b, hb, hbm⟩
  refine ⟨a, b, ha, hb, ?_⟩
  rw [ham, hbm]
  have hui : unmatchedBefore ms (i + 1) = unmatchedBefore ms i + 1 := by
    rw [unmatchedBefore_succ ms i mi hmi, if_pos hi]
  have huj : unmatchedBefore ms (j + 1) = unmatchedBefore ms j + 1 := by
    rw [unmatchedBefore_succ ms j mj hmj, if_pos hj]
  have hmono : unmatchedBefore ms (i + 1) ≤ unmatchedBefore ms j :=
    unmatchedBefore_mono ms (by omega)
  have hle := unmatchedBefore_le_filter ms (j + 1)
  have hne := idAfter_ne c hc0 hc1
    (unmatchedBefore ms (i + 1) - 1) (unmatchedBefore ms (j + 1) - 1)
    (by omega) (by omega)
  have e1 : unmatchedBefore ms (i + 1) - 1 + 1 = unmatchedBefore ms (i + 1) := by omega
  have e2 : unmatchedBefore ms (j + 1) - 1 + 1 = unmatchedBefore ms (j + 1) := by omega
  rw [e1, e2] at hne
  exact hne

/-- C4 (amended): within a single assignment batch containing at most
`maxIdentityValue` (100000) unmatched detections, and with the counter in
its reachable range `[0, 100000]`, any two distinct detections whose
Matches both record "no match" receive distinct newly minted identities —
the counter advances exactly once per unmatched detection.  (Without the
batch-size bound the counter wraps around within the batch and reuses a
value; see the counterexample.) -/
theorem c4_distinct_fresh_identities_bounded_batch
    (dets preds out : List TObject) (ms : List TMatch) (c c' : Int)
    (i j : Nat) (mi mj : TMatch)
    (hc0 : 0 ≤ c) (hc1 : c ≤ 100000)
    (hU : (ms.filter (fun m => m.predId == -1)).length ≤ 100000)
    (hsome : assignLoop dets ms preds c = some (out, c'))
    (hij : i ≠ j)
    (hmi : ms[i]? = some mi) (hmj : ms[j]? = some mj)
    (hi : mi.predId = -1) (hj : mj.predId = -1) :
    ∃ a b, out[i]? = some a ∧ out[j]? = some b ∧ a.m_id ≠ b.m_id := by
  rcases Nat.lt_trichotomy i j with hlt | heq | hgt
  · exact assignLoop_distinct_unmatched_lt dets preds out ms c c' i j mi mj
      hc0 hc1 hU hsome hlt hmi hmj hi hj
  · exact absurd heq hij
  · obtain ⟨x, y, hx, hy, hxy⟩ :=
      assignLoop_distinct_unmatched_lt dets preds out ms c c' j i mj mi
        hc0 hc1 hU hsome hgt hmj hmi hj hi
    exact ⟨y, x, hy, hx, hxy.symm⟩

/-- Witness for C4 (amended): two unmatched detections get ids 1 and 2. -/
theorem c4_distinct_fresh_identities_bounded_batch_witness :
    ∃ a b, (([⟨1, 1, bbA⟩, ⟨2, 1, bbB⟩] : List TObject))[0]? = some a ∧
      (([⟨1, 1, bbA⟩, ⟨2, 1, bbB⟩] : List TObject))[1]? = some b ∧
      a.m_id ≠ b.m_id :=
  c4_distinct_fresh_identities_bounded_batch [dA, dB] [] [⟨1, 1, bbA⟩, ⟨2, 1, bbB⟩]
    [mNone, mNone] 0 2 0 1 mNone mNone
    (by decide) (by decide) (by decide) (by decide) (by decide)
    (by decide) (by decide) (by decide) (by decide)

/-- C4 counterexample: in a single batch of 100001 unmatched detections
(counter starting at 0), the detections at positions 0 and 100000 BOTH
receive identity 1 — the counter wraps around within the batch, so "a value
is never reused within the same call batch" fails as universally stated. -/
theorem c4_wraparound_reuse_counterexample :
    (assignLoop (List.replicate 100001 dA) (List.replicate 100001 mNone) [] 0).map
      (fun rc => ((rc.1[0]?).map TObject.m_id, (rc.1[100000]?).map TObject.m_id)) =
      some (some 1, some 1) := by
  have hfilter : ∀ n : Nat,
      (List.replicate n mNone).filter (fun m => m.predId == -1) =
        List.replicate n mNone := by
    intro n
    induction n with
    | zero => rfl
    | succ k ihk =>
      rw [List.replicate_succ, List.filter_cons]
      simp [ihk, mNone]
  have hu : ∀ j : Nat,
      unmatchedBefore (List.replicate 100001 mNone) j = min j 100001 := by
    intro j
    unfold unmatchedBefore
    rw [List.take_replicate, hfilter, List.length_replicate]
  have hvalid : ∀ m ∈ List.replicate 100001 mNone,
      m.predId = -1 ∨ (0 ≤ m.predId ∧ m.predId.toNat < ([] : List TObject).length) := by
    intro m hm
    rw [List.eq_of_mem_replicate hm]
    exact Or.inl rfl
  obtain ⟨rc0, hsome⟩ := Option.isSome_iff_exists.mp
    (assignLoop_isSome (List.replicate 100001 mNone) (List.replicate 100001 dA) [] 0
      (by rw [List.length_replicate, List.length_replicate]) hvalid)
  obtain ⟨out, c'⟩ := rc0
  have hget : ∀ i : Nat, i < 100001 →
      (List.replicate 100001 mNone)[i]? = some mNone := by
    intro i hi
    rw [List.getElem?_replicate, if_pos hi]
  have h0 := assignLoop_unmatched_id (List.replicate 100001 mNone)
    (List.replicate 100001 dA) [] out 0 c' 0 mNone hsome (hget 0 (by norm_num)) rfl
  have h1 := assignLoop_unmatched_id (List.replicate 100001 mNone)
    (List.replicate 100001 dA) [] out 0 c' 100000 mNone hsome
    (hget 100000 (by norm_num)) rfl
  have hone : idAfter 0 1 = 1 := by decide
  have hbig : idAfter 0 100001 = 1 := by
    have hf := idAfter_formula 0 (by norm_num) (by norm_num) 100000
    norm_num at hf
    exact hf
  have hmin0 : min (0 + 1) 100001 = 1 := by norm_num
  have hmin1 : min (100000 + 1) 100001 = 100001 := by norm_num
  rw [hu, hmin0, hone] at h0
  rw [hu, hmin1, hbig] at h1
  rw [hsome]
  simp only [Option.map_some']
  rw [h0, h1]
